import Mathlib

/-!
Verification of the Datakat log-ingestion backend (Go) against its
natural-language specification.

The Go sources are shallowly embedded: time instants are modelled as natural
or integer numbers, Go interfaces (the header parser, the JSON serializer,
broker publish results, database query results) become function parameters,
maps become association lists, and fallible operations return Option or
Except values.  Every definition mirrors the corresponding Go function of
the repository; spec-side reference definitions are clearly named as such.
-/

namespace Datakat

/-- model.LogEntry (internal/model/logentry.go).  Timestamps are abstract
instants modelled as naturals. -/
structure LogEntry where
  timestamp : Nat
  level : String
  component : String
  content : String
  application : String
  sourceFile : String
  raw : String
  deriving Repr, DecidableEq

/-- parser.HeaderInfo (internal/parser, multiline-capable variant): the
result of matching the header regex on a line. -/
structure HeaderInfo where
  timestamp : Nat
  level : String
  component : String
  initialContent : String
  deriving Repr, DecidableEq

/-- parser.ExtractApplicationID: take the base name of the directory that
contains the file; if it begins with "application_" return it, otherwise
return "unknown_application". -/
def extractApplicationID (filePath : String) : String :=
  match (filePath.splitOn "/").reverse with
  | _ :: dir :: _ => if dir.startsWith "application_" then dir else "unknown_application"
  | _ => "unknown_application"

/-- The in-flight entry of processSingleFileMultiline: the current header
together with the accumulated content and raw buffers
(currentEntry / contentBuffer / rawBuffer in the Go source). -/
structure InFlight where
  header : HeaderInfo
  contentBuf : String
  rawBuf : String
  deriving Repr, DecidableEq

/-- The synthetic ORPHAN entry emitted for a continuation line with no
in-flight entry (service/logproducer.go). -/
def orphanEntry (now : Nat) (appID srcFile line : String) : LogEntry :=
  { timestamp := now, level := "UNKNOWN", component := "ORPHAN",
    content := line, application := appID, sourceFile := srcFile, raw := line }

/-- finalizeEntry's flushing of the in-flight entry into a LogEntry. -/
def closeEntry (appID srcFile : String) (f : InFlight) : LogEntry :=
  { timestamp := f.header.timestamp, level := f.header.level,
    component := f.header.component, content := f.contentBuf,
    application := appID, sourceFile := srcFile, raw := f.rawBuf }

/-- finalizeEntry (Go closure in processSingleFileMultiline): append the
in-flight entry, if any, to the accumulated output. -/
def finalizeAcc (appID srcFile : String) : Option InFlight → List LogEntry → List LogEntry
  | some f, acc => acc ++ [closeEntry appID srcFile f]
  | none, acc => acc

/-- One iteration of the scanner loop of processSingleFileMultiline.  The
header parser is the injected parser.LogParser dependency, modelled as a
function returning some header info exactly when ParseHeader reports a
header line. -/
def stepLine (ph : String → Option HeaderInfo) (now : Nat) (appID srcFile : String)
    (st : Option InFlight × List LogEntry) (line : String) :
    Option InFlight × List LogEntry :=
  match ph line with
  | some h => (some ⟨h, h.initialContent, line⟩, finalizeAcc appID srcFile st.1 st.2)
  | none =>
    match st.1 with
    | some f =>
      (some ⟨f.header, f.contentBuf ++ "\n" ++ line, f.rawBuf ++ "\n" ++ line⟩, st.2)
    | none => (none, st.2 ++ [orphanEntry now appID srcFile line])

/-- service.processSingleFileMultiline restricted to its stitching core: the
list of entries produced from the stream of lines read from the file (the
offset bookkeeping is modelled separately, in the cycle model below). -/
def processSingleFileMultiline (ph : String → Option HeaderInfo) (now : Nat)
    (appID srcFile : String) (lines : List String) : List LogEntry :=
  let st := lines.foldl (stepLine ph now appID srcFile) (none, [])
  finalizeAcc appID srcFile st.1 st.2

/-- Joining a seed string with follow-up lines, a "\n" before each follow-up
line; this is how the content and raw buffers grow on continuation lines. -/
def joinLines : String → List String → String
  | s, [] => s
  | s, l :: ls => joinLines (s ++ "\n" ++ l) ls

/-- Specification-side: the entry a header line `g.1` (parsed as `g.2.1`)
followed by the continuation lines `g.2.2` should produce. -/
def buildEntry (appID srcFile : String) (g : String × HeaderInfo × List String) : LogEntry :=
  { timestamp := g.2.1.timestamp, level := g.2.1.level, component := g.2.1.component,
    content := joinLines g.2.1.initialContent g.2.2,
    application := appID, sourceFile := srcFile,
    raw := joinLines g.1 g.2.2 }

/-- Specification-side: collect the continuation lines following a header
into a group, starting a new group at each further header. -/
def groupRec (ph : String → Option HeaderInfo) :
    String → HeaderInfo → List String → List String →
    List (String × HeaderInfo × List String)
  | hl, h, conts, [] => [(hl, h, conts)]
  | hl, h, conts, l :: ls =>
    match ph l with
    | some h2 => (hl, h, conts) :: groupRec ph l h2 [] ls
    | none => groupRec ph hl h (conts ++ [l]) ls

/-- Specification-side: split a stream of lines into header groups, skipping
any leading continuation lines. -/
def splitGroups (ph : String → Option HeaderInfo) :
    List String → List (String × HeaderInfo × List String)
  | [] => []
  | l :: ls =>
    match ph l with
    | some h => groupRec ph l h [] ls
    | none => splitGroups ph ls

/-- The scanner loop of processSingleFileMultiline started from an arbitrary
in-flight state and accumulator (the initial call uses none and []). -/
def stitchFrom (ph : String → Option HeaderInfo) (now : Nat) (appID srcFile : String)
    (st : Option InFlight) (acc : List LogEntry) (lines : List String) : List LogEntry :=
  let r := lines.foldl (stepLine ph now appID srcFile) (st, acc)
  finalizeAcc appID srcFile r.1 r.2

theorem stitchFrom_cons (ph : String → Option HeaderInfo) (now : Nat)
    (appID srcFile : String) (st : Option InFlight) (acc : List LogEntry)
    (l : String) (ls : List String) :
    stitchFrom ph now appID srcFile st acc (l :: ls) =
      stitchFrom ph now appID srcFile
        (stepLine ph now appID srcFile (st, acc) l).1
        (stepLine ph now appID srcFile (st, acc) l).2 ls := rfl

theorem processSingleFileMultiline_eq_stitchFrom (ph : String → Option HeaderInfo)
    (now : Nat) (appID srcFile : String) (lines : List String) :
    processSingleFileMultiline ph now appID srcFile lines =
      stitchFrom ph now appID srcFile none [] lines := rfl

theorem joinLines_append (conts : List String) (s l : String) :
    joinLines s (conts ++ [l]) = joinLines s conts ++ "\n" ++ l := by
  induction conts generalizing s with
  | nil => simp [joinLines]
  | cons c cs ih => simp [joinLines, ih]

theorem stitchFrom_inflight (ph : String → Option HeaderInfo) (now : Nat)
    (appID srcFile : String) :
    ∀ (ls : List String) (hl : String) (h : HeaderInfo) (conts : List String)
      (acc : List LogEntry),
      stitchFrom ph now appID srcFile
          (some ⟨h, joinLines h.initialContent conts, joinLines hl conts⟩) acc ls
        = acc ++ (groupRec ph hl h conts ls).map (buildEntry appID srcFile) := by
  intro ls
  induction ls with
  | nil =>
    intro hl h conts acc
    simp [stitchFrom, finalizeAcc, groupRec, closeEntry, buildEntry]
  | cons l ls ih =>
    intro hl h conts acc
    rw [stitchFrom_cons]
    cases hp : ph l with
    | some h2 =>
      simp only [stepLine, hp, finalizeAcc]
      have ih2 := ih l h2 []
        (acc ++ [closeEntry appID srcFile
          ⟨h, joinLines h.initialContent conts, joinLines hl conts⟩])
      simp only [joinLines] at ih2
      rw [ih2]
      simp [groupRec, hp, closeEntry, buildEntry]
    | none =>
      simp only [stepLine, hp]
      have e1 : joinLines h.initialContent conts ++ "\n" ++ l
          = joinLines h.initialContent (conts ++ [l]) := (joinLines_append ..).symm
      have e2 : joinLines hl conts ++ "\n" ++ l = joinLines hl (conts ++ [l]) :=
        (joinLines_append ..).symm
      rw [e1, e2, ih hl h (conts ++ [l]) acc]
      simp [groupRec, hp]

theorem stitchFrom_none (ph : String → Option HeaderInfo) (now : Nat)
    (appID srcFile : String) :
    ∀ (ls : List String) (acc : List LogEntry),
      stitchFrom ph now appID srcFile none acc ls
        = acc ++ (ls.takeWhile (fun l => (ph l).isNone)).map (orphanEntry now appID srcFile)
            ++ (splitGroups ph ls).map (buildEntry appID srcFile) := by
  intro ls
  induction ls with
  | nil => intro acc; simp [stitchFrom, finalizeAcc, splitGroups]
  | cons l ls ih =>
    intro acc
    rw [stitchFrom_cons]
    cases hp : ph l with
    | some h =>
      simp only [stepLine, hp, finalizeAcc]
      have base := stitchFrom_inflight ph now appID srcFile ls l h [] acc
      simp only [joinLines] at base
      rw [base]
      simp [List.takeWhile_cons, hp, splitGroups]
    | none =>
      simp only [stepLine, hp, finalizeAcc]
      rw [ih]
      simp [List.takeWhile_cons, hp, splitGroups]

theorem groupRec_length (ph : String → Option HeaderInfo) :
    ∀ (ls : List String) (hl : String) (h : HeaderInfo) (conts : List String),
      (groupRec ph hl h conts ls).length = 1 + ls.countP (fun l => (ph l).isSome) := by
  intro ls
  induction ls with
  | nil => intro hl h conts; simp [groupRec]
  | cons l ls ih =>
    intro hl h conts
    cases hp : ph l with
    | some h2 =>
      simp [groupRec, hp, ih, List.countP_cons]
      omega
    | none =>
      simp [groupRec, hp, ih, List.countP_cons]

theorem splitGroups_length (ph : String → Option HeaderInfo) :
    ∀ ls : List String,
      (splitGroups ph ls).length = ls.countP (fun l => (ph l).isSome) := by
  intro ls
  induction ls with
  | nil => simp [splitGroups]
  | cons l ls ih =>
    cases hp : ph l with
    | some h =>
      simp [splitGroups, hp, groupRec_length, List.countP_cons]
      omega
    | none =>
      simp [splitGroups, hp, ih, List.countP_cons]

/-- C3: for every stream of lines, processSingleFileMultiline decomposes as
the ORPHAN entries for the leading continuation lines followed by one
stitched entry per header group; hence the number of stitched entries equals
the number of header lines, each stitched entry's raw is the header line and
its continuations joined by newlines (and its content is the header
remainder with the same continuations), and ORPHAN entries occur only when
the stream begins with a continuation line. -/
theorem c3_multiline_stitching (ph : String → Option HeaderInfo) (now : Nat)
    (appID srcFile : String) (lines : List String) :
    processSingleFileMultiline ph now appID srcFile lines
        = (lines.takeWhile (fun l => (ph l).isNone)).map (orphanEntry now appID srcFile)
            ++ (splitGroups ph lines).map (buildEntry appID srcFile)
      ∧ (splitGroups ph lines).length = lines.countP (fun l => (ph l).isSome)
      ∧ (∀ l0 rest, lines = l0 :: rest → (ph l0).isSome →
          (lines.takeWhile (fun l => (ph l).isNone)).map (orphanEntry now appID srcFile)
            = []) := by
  refine ⟨?_, splitGroups_length ph lines, ?_⟩
  · rw [processSingleFileMultiline_eq_stitchFrom, stitchFrom_none]
    simp
  · intro l0 rest hlines hsome
    subst hlines
    have : (ph l0).isNone = false := by
      cases hp : ph l0 with
      | some h => simp [Option.isNone]
      | none => rw [hp] at hsome; simp at hsome
    simp [List.takeWhile_cons, this]

/-- Witness for c3_multiline_stitching at a concrete parser and stream:
one leading continuation line (yields an ORPHAN), then a header with one
continuation. -/
theorem c3_multiline_stitching_witness :
    (processSingleFileMultiline
          (fun l => if l = "H" then some ⟨7, "INFO", "a.B", "hello"⟩ else none)
          3 "application_1_1" "f.log" ["orphan line", "H", "  at line two"]
        = [orphanEntry 3 "application_1_1" "f.log" "orphan line",
           buildEntry "application_1_1" "f.log"
             ("H", ⟨7, "INFO", "a.B", "hello"⟩, ["  at line two"])])
      ∧ (["H", "tail"].takeWhile
            (fun l => ((fun l => if l = "H" then some (⟨7, "INFO", "a.B", "hello"⟩ : HeaderInfo) else none) l).isNone)).map
            (orphanEntry 3 "application_1_1" "f.log") = [] := by
  constructor
  · have h := (c3_multiline_stitching
      (fun l => if l = "H" then some ⟨7, "INFO", "a.B", "hello"⟩ else none)
      3 "application_1_1" "f.log" ["orphan line", "H", "  at line two"]).1
    rw [h]
    rfl
  · exact (c3_multiline_stitching
      (fun l => if l = "H" then some ⟨7, "INFO", "a.B", "hello"⟩ else none)
      3 "application_1_1" "f.log" ["H", "tail"]).2.2 "H" ["tail"] rfl (by simp)

/-- Byte accounting of the tailing producer: each consumed line advances the
running offset by len(line)+1 (the stripped newline). -/
def lineBytes (l : String) : Nat := l.length + 1

/-- The byte size of a file holding the given lines. -/
def sizeBytes (lines : List String) : Nat := (lines.map lineBytes).sum

/-- Reading a file from a stored byte offset (the Seek before the scanner
loop).  Offsets produced by this pipeline always fall on line boundaries,
because every persisted offset is a sum of lineBytes values. -/
def dropBytes : List String → Nat → List String
  | ls, 0 => ls
  | [], _ => []
  | l :: ls, off => dropBytes ls (off - lineBytes l)

/-- filestate.FileProcessState: the persisted absolute-path-to-offset map,
modelled as an association list; absent keys read as 0 like a Go map. -/
def lookupOffset (st : List (String × Nat)) (p : String) : Nat :=
  match st.find? (fun kv => kv.1 == p) with
  | some kv => kv.2
  | none => 0

/-- Map update for the file-state association list. -/
def setOffset (st : List (String × Nat)) (p : String) (v : Nat) : List (String × Nat) :=
  if st.any (fun kv => kv.1 == p) then
    st.map (fun kv => if kv.1 == p then (p, v) else kv)
  else st ++ [(p, v)]

/-- The mutable state of one ProcessLogs cycle: the new offset map being
built, the cross-file entry accumulator allLogs, the producer calls made so
far with their outcomes, and totalEntriesSent. -/
structure CycleState where
  newState : List (String × Nat)
  allLogs : List LogEntry
  batches : List (List LogEntry × Bool)
  entriesSent : Nat
  deriving Repr, DecidableEq

/-- service.sendBatch: an empty batch returns success without touching the
producer; otherwise the batch goes to producer.Produce, whose outcome is the
injected broker's answer for this (k-th) publish of the cycle. -/
def sendBatch (pub : Nat → Bool) (cs : CycleState) (batch : List LogEntry) :
    CycleState × Bool :=
  if batch.isEmpty then (cs, true)
  else
    let ok := pub cs.batches.length
    ({ cs with batches := cs.batches ++ [(batch, ok)] }, ok)

/-- The per-file body of the ProcessLogs loop: load the stored offset from
the state copy, reset it on truncation, read the tail, record the advanced
offset in the new state unconditionally, then accumulate entries and flush a
batch whenever the accumulator reaches the configured batch size (a publish
error is only logged; the cycle proceeds). -/
def processFileStep (ph : String → Option HeaderInfo) (now : Nat) (batchSize : Nat)
    (pub : Nat → Bool) (cs : CycleState) (file : String × List String) : CycleState :=
  let path := file.1
  let stored := lookupOffset cs.newState path
  let currentSize := sizeBytes file.2
  let lastOffset := if currentSize < stored then 0 else stored
  let toRead := dropBytes file.2 lastOffset
  let newOffset := lastOffset + sizeBytes toRead
  let entries := processSingleFileMultiline ph now (extractApplicationID path) path toRead
  let cs1 : CycleState := { cs with newState := setOffset cs.newState path newOffset }
  if toRead.length > 0 then
    let all := cs1.allLogs ++ entries
    if batchSize ≤ all.length then
      let r := sendBatch pub { cs1 with allLogs := [] } all
      if r.2 then { r.1 with entriesSent := r.1.entriesSent + all.length } else r.1
    else { cs1 with allLogs := all }
  else cs1

/-- Result of one ProcessLogs cycle: the offset map handed to SaveState, the
producer calls with their outcomes, and the entries counted as sent. -/
structure CycleResult where
  savedState : List (String × Nat)
  batches : List (List LogEntry × Bool)
  entriesSent : Nat
  deriving Repr, DecidableEq

/-- service.ProcessLogs (success path, files given in discovery order): copy
the loaded state, process every file, flush the remaining accumulator, and
persist the new state via SaveState.  SaveState runs regardless of any
publish failure during the cycle. -/
def processLogs (ph : String → Option HeaderInfo) (now : Nat) (batchSize : Nat)
    (pub : Nat → Bool) (files : List (String × List String))
    (currentState : List (String × Nat)) : CycleResult :=
  let cs0 : CycleState :=
    { newState := currentState, allLogs := [], batches := [], entriesSent := 0 }
  let cs := files.foldl (processFileStep ph now batchSize pub) cs0
  let fin :=
    if cs.allLogs.isEmpty then cs
    else
      let r := sendBatch pub { cs with allLogs := [] } cs.allLogs
      if r.2 then { r.1 with entriesSent := r.1.entriesSent + cs.allLogs.length } else r.1
  { savedState := fin.newState, batches := fin.batches, entriesSent := fin.entriesSent }

/-- A header parser agreeing with the header regex on the one line of the
C1 scenario (the parser is an injected dependency of the service). -/
def c1Parser : String → Option HeaderInfo := fun l =>
  if l = "22/01/24 14:30:45 INFO a.B: hello" then some ⟨1642862445, "INFO", "a.B", "hello"⟩
  else none

/-- C1: evaluating the cycle at the failing input. One fresh file whose only
batch fails to publish: the producer was called once and returned failure,
yet the state handed to SaveState maps the file to the advanced offset 34,
not to its prior value 0 -- the unpublished tail is lost, not re-read. -/
theorem c1_publish_failure_still_persists_offset :
    (processLogs c1Parser 0 1 (fun _ => false)
        [("logs/application_1_1/c.log", ["22/01/24 14:30:45 INFO a.B: hello"])]
        []).batches.map (fun b => b.2) = [false]
      ∧ lookupOffset (processLogs c1Parser 0 1 (fun _ => false)
          [("logs/application_1_1/c.log", ["22/01/24 14:30:45 INFO a.B: hello"])]
          []).savedState "logs/application_1_1/c.log" = 34
      ∧ lookupOffset [] "logs/application_1_1/c.log" = 0 := by
  refine ⟨?_, ?_, rfl⟩ <;> rfl

theorem processFileStep_state_eq (ph : String → Option HeaderInfo) (now batchSize : Nat)
    (pub pub' : Nat → Bool) (cs cs' : CycleState) (file : String × List String)
    (h1 : cs.newState = cs'.newState) (h2 : cs.allLogs = cs'.allLogs)
    (h3 : cs.batches.length = cs'.batches.length) :
    (processFileStep ph now batchSize pub cs file).newState
        = (processFileStep ph now batchSize pub' cs' file).newState
      ∧ (processFileStep ph now batchSize pub cs file).allLogs
        = (processFileStep ph now batchSize pub' cs' file).allLogs
      ∧ (processFileStep ph now batchSize pub cs file).batches.length
        = (processFileStep ph now batchSize pub' cs' file).batches.length := by
  simp only [processFileStep, sendBatch, h1, h2]
  split_ifs <;> simp_all

theorem processLogs_fold_state_eq (ph : String → Option HeaderInfo)
    (now batchSize : Nat) (pub pub' : Nat → Bool) :
    ∀ (files : List (String × List String)) (cs cs' : CycleState),
      cs.newState = cs'.newState → cs.allLogs = cs'.allLogs →
      cs.batches.length = cs'.batches.length →
      (files.foldl (processFileStep ph now batchSize pub) cs).newState
          = (files.foldl (processFileStep ph now batchSize pub') cs').newState
        ∧ (files.foldl (processFileStep ph now batchSize pub) cs).allLogs
          = (files.foldl (processFileStep ph now batchSize pub') cs').allLogs
        ∧ (files.foldl (processFileStep ph now batchSize pub) cs).batches.length
          = (files.foldl (processFileStep ph now batchSize pub') cs').batches.length := by
  intro files
  induction files with
  | nil => intro cs cs' h1 h2 h3; exact ⟨h1, h2, h3⟩
  | cons f fs ih =>
    intro cs cs' h1 h2 h3
    have step := processFileStep_state_eq ph now batchSize pub pub' cs cs' f h1 h2 h3
    simpa using ih _ _ step.1 step.2.1 step.2.2

/-- The offset map handed to SaveState at the end of a cycle does not depend
on the broker's publish outcomes at all: ProcessLogs advances and persists
per-file offsets whether or not their batches were published. -/
theorem processLogs_savedState_independent_of_publish (ph : String → Option HeaderInfo)
    (now batchSize : Nat) (pub pub' : Nat → Bool)
    (files : List (String × List String)) (currentState : List (String × Nat)) :
    (processLogs ph now batchSize pub files currentState).savedState
      = (processLogs ph now batchSize pub' files currentState).savedState := by
  have h := processLogs_fold_state_eq ph now batchSize pub pub' files
    { newState := currentState, allLogs := [], batches := [], entriesSent := 0 }
    { newState := currentState, allLogs := [], batches := [], entriesSent := 0 }
    rfl rfl rfl
  simp only [processLogs, sendBatch, h.2.1]
  split_ifs <;> simp_all

/-- kafka.Message restricted to the fields Produce sets: the key and the
value bytes (bytes modelled as a string). -/
structure KMessage where
  key : String
  value : String
  deriving Repr, DecidableEq

/-- The zero kafka.Message (nil key, nil value): what a slot of the
preallocated message slice holds when it is never assigned. -/
def zeroMessage : KMessage := ⟨"", ""⟩

/-- The message-building loop of kafkaLogProducer.Produce: the slice is
preallocated with one zero-valued slot per input entry; a slot is assigned
the application key and the JSON bytes only when serialization succeeds, and
left at its zero value when it fails (the loop merely logs and continues).
The serializer is json.Marshal, modelled as an injected function that may
fail. -/
def buildMessages (ser : LogEntry → Option String) (logs : List LogEntry) :
    List KMessage :=
  logs.map (fun e =>
    match ser e with
    | some v => ⟨e.application, v⟩
    | none => zeroMessage)

/-- Result of Produce: the messages handed to writer.WriteMessages (empty
when the writer was not called) and whether Produce returned nil. -/
structure ProduceResult where
  written : List KMessage
  ok : Bool
  deriving Repr, DecidableEq

/-- kafkaLogProducer.Produce: empty input returns nil without writing; then
the guard `len(messages) == 0` can never fire for non-empty input because
the slice length is fixed at len(logs); all slots, zero-valued ones
included, are passed to the writer, whose outcome is writeOk. -/
def produce (ser : LogEntry → Option String) (writeOk : Bool)
    (logs : List LogEntry) : ProduceResult :=
  if logs.isEmpty then ⟨[], true⟩
  else
    let messages := buildMessages ser logs
    if messages.isEmpty then ⟨[], true⟩
    else ⟨messages, writeOk⟩

/-- A concrete entry whose json.Marshal fails in Go (a timestamp whose year
exceeds 9999 makes time.Time.MarshalJSON return an error). -/
def c5BadEntry : LogEntry :=
  { timestamp := 253402300800, level := "INFO", component := "a.B",
    content := "hello", application := "application_1_1",
    sourceFile := "logs/application_1_1/c.log", raw := "raw" }

/-- A second entry whose serialization succeeds. -/
def c5GoodEntry : LogEntry :=
  { timestamp := 1642862445, level := "ERROR", component := "a.B",
    content := "boom", application := "application_1_1",
    sourceFile := "logs/application_1_1/c.log", raw := "raw2" }

/-- A serializer failing exactly on the bad entry. -/
def c5Ser : LogEntry → Option String := fun e =>
  if e = c5BadEntry then none else some "json-bytes"

/-- C5: evaluating Produce at the failing input.  An entry whose
serialization fails is not dropped: a zero-valued message (empty key, empty
value) is published in its place, so a batch of one failing entry publishes
one empty message instead of nothing, and a good-plus-bad batch publishes
two messages, the second of them the zero message. -/
theorem c5_failed_serialization_publishes_zero_message :
    (produce c5Ser true [c5BadEntry]).written = [zeroMessage]
      ∧ (produce c5Ser true [c5GoodEntry, c5BadEntry]).written
        = [⟨"application_1_1", "json-bytes"⟩, zeroMessage]
      ∧ (produce c5Ser true [c5BadEntry]).written ≠ [] := by
  refine ⟨rfl, rfl, ?_⟩
  decide

/-- kafka.Message as the consumer sees it: the topic (the zero message has
an empty topic, which is how processBatch recognizes it) and the broker
offset; it is the opaque commit handle. -/
structure KafkaMsg where
  topic : String
  offset : Nat
  deriving Repr, DecidableEq

/-- What one call of consumer.FetchMessage would yield once it completes:
a parsed entry with its handle, an unmarshal failure that still carries the
real handle, or an unrecoverable error with the zero message. -/
inductive FetchOutcome where
  | ok (entry : LogEntry) (msg : KafkaMsg)
  | unmarshalErr (msg : KafkaMsg)
  | fatal
  deriving Repr, DecidableEq

/-- The loop state of processBatch's batch-building phase: logEntries (nil
entries kept as none), originalMessages, commitNeeded, the time elapsed
since batchStartTime, and the timeout granted to each fetch context so far. -/
structure BState where
  entries : List (Option LogEntry)
  msgs : List KafkaMsg
  commitNeeded : Bool
  elapsed : Nat
  granted : List Nat
  deriving Repr, DecidableEq

/-- Why the batch-building loop ended: the size cap was reached, the
max-wait deadline expired, or an unrecoverable fetch error aborted the
iteration. -/
inductive BuildStop where
  | size
  | deadline
  | fatalErr
  deriving Repr, DecidableEq

/-- The state at batchStartTime. -/
def initBState : BState := ⟨[], [], false, 0, []⟩

/-- The batch-building loop of logConsumerService.processBatch.  The script
lists the outcome each successive fetch would deliver together with the
time it needs; a fetch completes only if it needs strictly less time than
the deadline-bounded context allows (maxWait minus the elapsed time), and
an exhausted script stands for a broker with no further messages, so the
fetch blocks until the context deadline expires. -/
def buildBatch (batchSize maxWait : Nat) :
    List (FetchOutcome × Nat) → BState → BState × BuildStop
  | script, st =>
    if batchSize ≤ st.entries.length then (st, .size)
    else
      let remaining := maxWait - st.elapsed
      let st1 : BState := { st with granted := st.granted ++ [remaining] }
      match script with
      | [] => ({ st1 with elapsed := maxWait }, .deadline)
      | (o, c) :: rest =>
        if remaining ≤ c then ({ st1 with elapsed := maxWait }, .deadline)
        else
          match o with
          | .ok e m =>
            buildBatch batchSize maxWait rest
              { st1 with entries := st1.entries ++ [some e], msgs := st1.msgs ++ [m],
                         commitNeeded := true, elapsed := st1.elapsed + c }
          | .unmarshalErr m =>
            if m.topic = "" then ({ st1 with elapsed := st1.elapsed + c }, .fatalErr)
            else
              buildBatch batchSize maxWait rest
                { st1 with entries := st1.entries ++ [none], msgs := st1.msgs ++ [m],
                           elapsed := st1.elapsed + c }
          | .fatal => ({ st1 with elapsed := st1.elapsed + c }, .fatalErr)

/-- Result of one processBatch iteration: the argument passed to
logStore.StoreLogs if it was called, the argument passed to
consumer.CommitMessages if it was called, and whether processBatch
returned nil. -/
structure PBResult where
  storeCall : Option (List LogEntry)
  commitCall : Option (List KafkaMsg)
  ok : Bool
  deriving Repr, DecidableEq

/-- logConsumerService.processBatch: build the batch, and when it is
non-empty store the non-nil entries; a store failure returns the error
without committing; otherwise the collected handles are committed in one
batch commit, but only when commitNeeded was set, i.e. when at least one
message of the batch was fetched and parsed successfully. -/
def processBatch (batchSize maxWait : Nat) (script : List (FetchOutcome × Nat))
    (storeOk commitOk : Bool) : PBResult :=
  let r := buildBatch batchSize maxWait script initBState
  match r.2 with
  | .fatalErr => ⟨none, none, false⟩
  | _ =>
    let st := r.1
    if st.entries.isEmpty then ⟨none, none, true⟩
    else
      let valid := st.entries.filterMap id
      if storeOk then
        if st.commitNeeded then ⟨some valid, some st.msgs, commitOk⟩
        else ⟨some valid, none, true⟩
      else ⟨some valid, none, false⟩

/-- C2 counterexample: a batch holding only an unmarshal-failed message.
The bulk store is called (with no documents) and succeeds, processBatch
returns nil, yet the collected handle is never committed -- contradicting
"if it succeeds, all collected handles are committed in one batch commit". -/
theorem c2_all_invalid_batch_not_committed :
    (processBatch 10 100 [(FetchOutcome.unmarshalErr ⟨"applogs", 5⟩, 1)] true true).ok
        = true
      ∧ (processBatch 10 100 [(FetchOutcome.unmarshalErr ⟨"applogs", 5⟩, 1)] true true).storeCall
        = some []
      ∧ (processBatch 10 100 [(FetchOutcome.unmarshalErr ⟨"applogs", 5⟩, 1)] true true).commitCall
        = none
      ∧ (buildBatch 10 100 [(FetchOutcome.unmarshalErr ⟨"applogs", 5⟩, 1)] initBState).1.msgs
        = [⟨"applogs", 5⟩] := by
  exact ⟨rfl, rfl, rfl, rfl⟩

theorem buildBatch_nil (bs mw : Nat) (st : BState) :
    buildBatch bs mw [] st =
      if bs ≤ st.entries.length then (st, .size)
      else ({ st with granted := st.granted ++ [mw - st.elapsed], elapsed := mw },
            .deadline) := rfl

theorem buildBatch_cons (bs mw : Nat) (o : FetchOutcome) (c : Nat)
    (rest : List (FetchOutcome × Nat)) (st : BState) :
    buildBatch bs mw ((o, c) :: rest) st =
      if bs ≤ st.entries.length then (st, .size)
      else if mw - st.elapsed ≤ c then
        ({ st with granted := st.granted ++ [mw - st.elapsed], elapsed := mw }, .deadline)
      else
        match o with
        | .ok e m =>
          buildBatch bs mw rest
            { entries := st.entries ++ [some e], msgs := st.msgs ++ [m],
              commitNeeded := true, elapsed := st.elapsed + c,
              granted := st.granted ++ [mw - st.elapsed] }
        | .unmarshalErr m =>
          if m.topic = "" then
            ({ st with granted := st.granted ++ [mw - st.elapsed],
                       elapsed := st.elapsed + c }, .fatalErr)
          else
            buildBatch bs mw rest
              { entries := st.entries ++ [none], msgs := st.msgs ++ [m],
                commitNeeded := st.commitNeeded, elapsed := st.elapsed + c,
                granted := st.granted ++ [mw - st.elapsed] }
        | .fatal =>
          ({ st with granted := st.granted ++ [mw - st.elapsed],
                     elapsed := st.elapsed + c }, .fatalErr) := rfl

theorem buildBatch_commitNeeded_nonempty (bs mw : Nat) :
    ∀ (script : List (FetchOutcome × Nat)) (st : BState),
      (st.commitNeeded = true → st.entries ≠ []) →
      ((buildBatch bs mw script st).1.commitNeeded = true →
        (buildBatch bs mw script st).1.entries ≠ []) := by
  intro script
  induction script with
  | nil =>
    intro st h
    rw [buildBatch_nil]
    split_ifs with hsz
    · exact h
    · simpa using h
  | cons item rest ih =>
    intro st h
    obtain ⟨o, c⟩ := item
    rw [buildBatch_cons]
    split_ifs with hsz hdl
    · exact h
    · simpa using h
    · cases o with
      | ok e m => exact ih _ (by simp)
      | unmarshalErr m =>
        by_cases ht : m.topic = ""
        · simp only [ht, if_pos rfl]
          simpa using h
        · simp only [if_neg ht]
          exact ih _ (by simp)
      | fatal => simpa using h

theorem buildBatch_size_exact (bs mw : Nat) :
    ∀ (script : List (FetchOutcome × Nat)) (st : BState),
      st.entries.length ≤ bs →
      (buildBatch bs mw script st).2 = .size →
      (buildBatch bs mw script st).1.entries.length = bs := by
  intro script
  induction script with
  | nil =>
    intro st hle
    rw [buildBatch_nil]
    split_ifs with hsz
    · intro _; show st.entries.length = bs; omega
    · intro hstop; simp at hstop
  | cons item rest ih =>
    intro st hle
    obtain ⟨o, c⟩ := item
    rw [buildBatch_cons]
    split_ifs with hsz hdl
    · intro _; show st.entries.length = bs; omega
    · intro hstop; simp at hstop
    · cases o with
      | ok e m =>
        refine ih _ ?_
        simp only [List.length_append, List.length_cons, List.length_nil]
        omega
      | unmarshalErr m =>
        by_cases ht : m.topic = ""
        · simp only [ht, if_pos rfl]
          intro hstop; simp at hstop
        · simp only [if_neg ht]
          refine ih _ ?_
          simp only [List.length_append, List.length_cons, List.length_nil]
          omega
      | fatal => intro hstop; simp at hstop

theorem buildBatch_deadline_elapsed (bs mw : Nat) :
    ∀ (script : List (FetchOutcome × Nat)) (st : BState),
      (buildBatch bs mw script st).2 = .deadline →
      (buildBatch bs mw script st).1.elapsed = mw := by
  intro script
  induction script with
  | nil =>
    intro st
    rw [buildBatch_nil]
    split_ifs with hsz
    · intro hstop; simp at hstop
    · intro _; rfl
  | cons item rest ih =>
    intro st
    obtain ⟨o, c⟩ := item
    rw [buildBatch_cons]
    split_ifs with hsz hdl
    · intro hstop; simp at hstop
    · intro _; rfl
    · cases o with
      | ok e m => exact ih _
      | unmarshalErr m =>
        by_cases ht : m.topic = ""
        · simp only [ht, if_pos rfl]
          intro hstop; simp at hstop
        · simp only [if_neg ht]
          exact ih _
      | fatal => intro hstop; simp at hstop

/-- Specification-side: the fetch-context timeouts the loop should grant,
one per fetch, each equal to maxWait minus the time consumed by the
completed fetches before it; the trace ends at the size cap, at a fetch
that cannot complete before the deadline, or at an unrecoverable error. -/
def grantedTrace (mw : Nat) : Nat → List (FetchOutcome × Nat) → Nat → List Nat
  | _, _, 0 => []
  | e, [], _ + 1 => [mw - e]
  | e, (o, c) :: rest, slots + 1 =>
    if mw - e ≤ c then [mw - e]
    else
      match o with
      | .ok _ _ => (mw - e) :: grantedTrace mw (e + c) rest slots
      | .unmarshalErr m =>
        if m.topic = "" then [mw - e]
        else (mw - e) :: grantedTrace mw (e + c) rest slots
      | .fatal => [mw - e]

theorem buildBatch_granted (bs mw : Nat) :
    ∀ (script : List (FetchOutcome × Nat)) (st : BState),
      (buildBatch bs mw script st).1.granted
        = st.granted ++ grantedTrace mw st.elapsed script (bs - st.entries.length) := by
  intro script
  induction script with
  | nil =>
    intro st
    rw [buildBatch_nil]
    split_ifs with hsz
    · have h0 : bs - st.entries.length = 0 := by omega
      simp [h0, grantedTrace]
    · have hk : bs - st.entries.length = (bs - (st.entries.length + 1)) + 1 := by omega
      simp [hk, grantedTrace]
  | cons item rest ih =>
    intro st
    obtain ⟨o, c⟩ := item
    rw [buildBatch_cons]
    split_ifs with hsz hdl
    · have h0 : bs - st.entries.length = 0 := by omega
      simp [h0, grantedTrace]
    · have hk : bs - st.entries.length = (bs - (st.entries.length + 1)) + 1 := by omega
      simp [hk, grantedTrace, hdl]
    · have hk : bs - st.entries.length = (bs - (st.entries.length + 1)) + 1 := by omega
      cases o with
      | ok e m =>
        rw [ih]
        simp [hk, grantedTrace, hdl, List.length_append]
      | unmarshalErr m =>
        by_cases ht : m.topic = ""
        · simp only [ht, if_pos rfl]
          simp [hk, grantedTrace, hdl, ht]
        · simp only [if_neg ht]
          rw [ih]
          simp [hk, grantedTrace, hdl, ht, List.length_append]
      | fatal =>
        simp [hk, grantedTrace, hdl]

/-- C6: in every consumer batch-build iteration, accumulation ends at the
size cap with exactly batchSize collected messages, or at the max-wait
deadline with the full wait elapsed since the iteration started; and the
context timeout granted to each successive fetch is maxWait minus the time
already consumed in the iteration, as listed by grantedTrace. -/
theorem c6_batch_build_bounds (bs mw : Nat) (script : List (FetchOutcome × Nat)) :
    ((buildBatch bs mw script initBState).2 = .size →
        (buildBatch bs mw script initBState).1.entries.length = bs)
      ∧ ((buildBatch bs mw script initBState).2 = .deadline →
        (buildBatch bs mw script initBState).1.elapsed = mw)
      ∧ (buildBatch bs mw script initBState).1.granted = grantedTrace mw 0 script bs := by
  refine ⟨buildBatch_size_exact bs mw script initBState (by simp [initBState]), ?_, ?_⟩
  · exact buildBatch_deadline_elapsed bs mw script initBState
  · have h := buildBatch_granted bs mw script initBState
    simpa [initBState] using h

/-- Witness for c6_batch_build_bounds: a one-slot batch filled by one
successful fetch stops at the size cap with exactly one entry, and an empty
script stops at the deadline with the full max wait elapsed. -/
theorem c6_batch_build_bounds_witness :
    (buildBatch 1 10 [(FetchOutcome.ok
          ⟨0, "INFO", "a.B", "x", "app", "f", "x"⟩ ⟨"applogs", 0⟩, 1)]
        initBState).1.entries.length = 1
      ∧ (buildBatch 1 10 ([] : List (FetchOutcome × Nat)) initBState).1.elapsed = 10 := by
  constructor
  · exact (c6_batch_build_bounds 1 10
      [(FetchOutcome.ok ⟨0, "INFO", "a.B", "x", "app", "f", "x"⟩ ⟨"applogs", 0⟩, 1)]).1
      (by rfl)
  · exact (c6_batch_build_bounds 1 10 []).2.1 (by rfl)

theorem processBatch_fatalErr (bs mw : Nat) (script : List (FetchOutcome × Nat))
    (storeOk commitOk : Bool)
    (h : (buildBatch bs mw script initBState).2 = .fatalErr) :
    processBatch bs mw script storeOk commitOk = ⟨none, none, false⟩ := by
  simp only [processBatch]
  rw [h]

theorem processBatch_not_fatal (bs mw : Nat) (script : List (FetchOutcome × Nat))
    (storeOk commitOk : Bool)
    (h : (buildBatch bs mw script initBState).2 ≠ .fatalErr) :
    processBatch bs mw script storeOk commitOk =
      if (buildBatch bs mw script initBState).1.entries.isEmpty then ⟨none, none, true⟩
      else if storeOk then
        if (buildBatch bs mw script initBState).1.commitNeeded then
          ⟨some ((buildBatch bs mw script initBState).1.entries.filterMap id),
           some (buildBatch bs mw script initBState).1.msgs, commitOk⟩
        else ⟨some ((buildBatch bs mw script initBState).1.entries.filterMap id),
              none, true⟩
      else ⟨some ((buildBatch bs mw script initBState).1.entries.filterMap id),
            none, false⟩ := by
  simp only [processBatch]

/-- C2 amended: the broker commit happens only after the bulk store of the
same batch succeeded -- a store failure returns the error with no commit --
and when the store succeeds the collected handles are committed in a single
batch commit, with a commit failure returned while the data stays stored;
but the commit only happens when at least one message of the batch was
fetched and parsed successfully (commitNeeded); a non-empty batch holding
only unparseable messages is never committed. -/
theorem c2_commit_after_store (bs mw : Nat) (script : List (FetchOutcome × Nat))
    (storeOk commitOk : Bool) :
    ((processBatch bs mw script storeOk commitOk).commitCall ≠ none →
        storeOk = true ∧ (processBatch bs mw script storeOk commitOk).storeCall ≠ none)
      ∧ (storeOk = false → (buildBatch bs mw script initBState).2 ≠ .fatalErr →
          (buildBatch bs mw script initBState).1.entries ≠ [] →
          (processBatch bs mw script storeOk commitOk).commitCall = none
            ∧ (processBatch bs mw script storeOk commitOk).ok = false)
      ∧ ((buildBatch bs mw script initBState).2 ≠ .fatalErr →
          (buildBatch bs mw script initBState).1.commitNeeded = true →
          storeOk = true →
          (processBatch bs mw script storeOk commitOk).commitCall
              = some (buildBatch bs mw script initBState).1.msgs
            ∧ (processBatch bs mw script storeOk commitOk).storeCall
              = some ((buildBatch bs mw script initBState).1.entries.filterMap id)
            ∧ (processBatch bs mw script storeOk commitOk).ok = commitOk)
      ∧ ((buildBatch bs mw script initBState).2 ≠ .fatalErr →
          (buildBatch bs mw script initBState).1.commitNeeded = false →
          storeOk = true →
          (processBatch bs mw script storeOk commitOk).commitCall = none
            ∧ (processBatch bs mw script storeOk commitOk).ok = true) := by
  have inv := buildBatch_commitNeeded_nonempty bs mw script initBState (by simp [initBState])
  by_cases hstop : (buildBatch bs mw script initBState).2 = .fatalErr
  · simp [processBatch_fatalErr bs mw script storeOk commitOk hstop, hstop]
  · rw [processBatch_not_fatal bs mw script storeOk commitOk hstop]
    by_cases hemp : (buildBatch bs mw script initBState).1.entries.isEmpty = true
    · have hnil : (buildBatch bs mw script initBState).1.entries = [] :=
        List.isEmpty_iff.mp hemp
      refine ⟨by simp [hemp], ?_, ?_, ?_⟩
      · intro _ _ hne; exact absurd hnil hne
      · intro _ hcn _; exact absurd (inv hcn) (by simp [hnil])
      · intro _ _ _; simp [hemp]
    · cases storeOk with
      | false => simp [hemp]
      | true =>
        cases hcn : (buildBatch bs mw script initBState).1.commitNeeded with
        | false => simp [hemp, hcn]
        | true => simp [hemp, hcn]

/-- Witness for c2_commit_after_store: one successfully parsed message, the
store succeeds, and the handle is committed in one batch commit. -/
theorem c2_commit_after_store_witness :
    (processBatch 2 100
        [(FetchOutcome.ok ⟨0, "INFO", "a.B", "x", "app", "f", "x"⟩ ⟨"applogs", 7⟩, 1)]
        true true).commitCall = some [⟨"applogs", 7⟩] := by
  exact ((c2_commit_after_store 2 100
      [(FetchOutcome.ok ⟨0, "INFO", "a.B", "x", "app", "f", "x"⟩ ⟨"applogs", 7⟩, 1)]
      true true).2.2.1 (by decide) (by decide) rfl).1

/-- Whether the pattern occurs at the head of the character list. -/
def matchesAt : List Char → List Char → Bool
  | _, [] => true
  | [], _ :: _ => false
  | h :: hs, p :: ps => h == p && matchesAt hs ps

/-- Whether the pattern occurs anywhere in the character list. -/
def subMatch (pat : List Char) : List Char → Bool
  | [] => matchesAt [] pat
  | c :: rest => matchesAt (c :: rest) pat || subMatch pat rest

/-- The compiled regex of metrics.NewSparkLogExtractor,
case-insensitive (exception|error|fail|caused by): the content matches iff
one of the four alternatives occurs as a substring, ignoring case. -/
def errorRegexMatches (content : String) : Bool :=
  ["exception", "error", "fail", "caused by"].any
    (fun p => subMatch p.data content.toLower.data)

/-- model.MetricEvent; the tags map is modelled as an association list in
insertion order. -/
structure MetricEvent where
  time : Nat
  metricName : String
  application : String
  tags : List (String × String)
  deriving Repr, DecidableEq

/-- Tag-map access. -/
def lookupTag (tags : List (String × String)) (k : String) : Option String :=
  match tags.find? (fun t => t.1 == k) with
  | some t => some t.2
  | none => none

/-- metrics.sparkLogExtractor.ExtractMetricEvents: nil input yields no
events; otherwise always one log_event tagged with level and component,
plus parse_status=failed_or_orphan when the level is UNKNOWN or the
component is UNKNOWN or ORPHAN; and additionally one error_event (tagged
component, level and error_key=content) when the level is ERROR or the
content matches the error regex. -/
def extractMetricEvents : Option LogEntry → List MetricEvent
  | none => []
  | some e =>
    let baseTags := [("level", e.level), ("component", e.component)]
    let logEventTags :=
      if e.level == "UNKNOWN" || e.component == "UNKNOWN" || e.component == "ORPHAN" then
        baseTags ++ [("parse_status", "failed_or_orphan")]
      else baseTags
    let events : List MetricEvent :=
      [{ time := e.timestamp, metricName := "log_event", application := e.application,
         tags := logEventTags }]
    let isError := e.level == "ERROR"
    let isError2 := if !isError && errorRegexMatches e.content then true else isError
    if isError2 then
      events ++
        [{ time := e.timestamp, metricName := "error_event", application := e.application,
           tags := [("component", e.component), ("level", e.level),
                    ("error_key", e.content)] }]
    else events

/-- C4: for every log entry, exactly one log_event is emitted, tagged with
the entry's level and component, with parse_status=failed_or_orphan exactly
when the level is UNKNOWN or the component is UNKNOWN or ORPHAN; exactly
one error_event (tagged component, level, error_key=content) is emitted iff
the level is ERROR or the content matches the case-insensitive error regex;
and no event other than these two kinds is produced. -/
theorem c4_metric_extraction (e : LogEntry) :
    extractMetricEvents none = []
      ∧ (extractMetricEvents (some e)).countP (fun ev => ev.metricName == "log_event") = 1
      ∧ (∀ ev ∈ extractMetricEvents (some e), ev.metricName = "log_event" →
          lookupTag ev.tags "level" = some e.level
            ∧ lookupTag ev.tags "component" = some e.component
            ∧ (lookupTag ev.tags "parse_status" = some "failed_or_orphan"
                ↔ (e.level = "UNKNOWN" ∨ e.component = "UNKNOWN" ∨ e.component = "ORPHAN")))
      ∧ ((extractMetricEvents (some e)).countP (fun ev => ev.metricName == "error_event") = 1
          ↔ (e.level = "ERROR" ∨ errorRegexMatches e.content = true))
      ∧ (∀ ev ∈ extractMetricEvents (some e), ev.metricName = "error_event" →
          lookupTag ev.tags "component" = some e.component
            ∧ lookupTag ev.tags "level" = some e.level
            ∧ lookupTag ev.tags "error_key" = some e.content)
      ∧ (∀ ev ∈ extractMetricEvents (some e),
          ev.metricName = "log_event" ∨ ev.metricName = "error_event") := by
  refine ⟨rfl, ?_⟩
  simp only [extractMetricEvents]
  split_ifs with h1 h2 <;>
    simp_all [lookupTag, List.countP_cons, List.countP_nil] <;> tauto

/-- Witness for c4_metric_extraction at a concrete ERROR entry: one
log_event and one error_event. -/
theorem c4_metric_extraction_witness :
    (extractMetricEvents (some ⟨5, "ERROR", "a.B", "boom", "app", "f", "raw"⟩)).countP
        (fun ev => ev.metricName == "error_event") = 1 := by
  exact (c4_metric_extraction ⟨5, "ERROR", "a.B", "boom", "app", "f", "raw"⟩).2.2.2.1.mpr
    (Or.inl rfl)

/-- dto.LogSearchRequest, times as abstract instants. -/
structure LogSearchRequest where
  startTime : Nat
  endTime : Nat
  query : String
  levels : List String
  applications : List String
  page : Int
  size : Int
  sortBy : String
  sortOrder : String
  deriving Repr, DecidableEq

/-- The fields known to carry .keyword sub-fields for sorting
(knownKeywordFields in elasticsearchLogRepository.Search). -/
def knownKeywordFields : List String := ["level", "component", "application", "source_file"]

/-- The sort-field fixup of Search: "@timestamp" verbatim; a known keyword
field gets ".keyword" appended; anything else is warned about and passed
through unchanged. -/
def searchSortField (sortBy : String) : String :=
  if sortBy ≠ "@timestamp" then
    if knownKeywordFields.contains sortBy then sortBy ++ ".keyword" else sortBy
  else sortBy

/-- The search request elasticsearchLogRepository.Search sends to the
index, restricted to the facets the spec talks about. -/
structure SearchRequest where
  indexPattern : String
  fromOffset : Int
  size : Int
  order : String
  sortField : String
  hasQueryString : Bool
  levelTermsField : Option String
  appTermsField : Option String
  deriving Repr, DecidableEq

/-- elasticsearchLogRepository.Search, query-building phase: daily-rolled
index pattern, from = (page-1)*size, desc unless "asc", sort-field fixup,
query-string clause only for a non-empty query, terms filters over the
.keyword sub-fields when levels or applications are given. -/
def buildSearchRequest (indexPref : String) (req : LogSearchRequest) : SearchRequest :=
  { indexPattern := indexPref ++ "-*"
  , fromOffset := (req.page - 1) * req.size
  , size := req.size
  , order := if req.sortOrder == "asc" then "asc" else "desc"
  , sortField := searchSortField req.sortBy
  , hasQueryString := req.query != ""
  , levelTermsField := if req.levels.isEmpty then none else some "level.keyword"
  , appTermsField := if req.applications.isEmpty then none else some "application.keyword" }

/-- Specification-side restatement of the claimed sort rule. -/
def sortFieldSpec (sortBy : String) : String :=
  if sortBy = "@timestamp" then sortBy
  else if sortBy = "level" ∨ sortBy = "component" ∨ sortBy = "application"
      ∨ sortBy = "source_file" then sortBy ++ ".keyword"
  else sortBy

/-- C7: for every log search request the sort field sent to the index is
the requested sort_by verbatim when it is "@timestamp", the requested
sort_by with ".keyword" appended when it is level, component, application
or source_file, and the unchanged sort_by otherwise. -/
theorem c7_sort_keyword_fixup (indexPref : String) (req : LogSearchRequest) :
    (buildSearchRequest indexPref req).sortField = sortFieldSpec req.sortBy := by
  show searchSortField req.sortBy = sortFieldSpec req.sortBy
  simp only [searchSortField, sortFieldSpec, knownKeywordFields]
  by_cases hts : req.sortBy = "@timestamp"
  · simp [hts]
  · simp only [ne_eq, hts, not_false_iff, if_true, if_neg hts]
    by_cases hm : req.sortBy = "level" ∨ req.sortBy = "component"
        ∨ req.sortBy = "application" ∨ req.sortBy = "source_file"
    · have hc : (["level", "component", "application", "source_file"].contains req.sortBy)
          = true := by simpa using hm
      rw [if_pos hc, if_pos hm]
      simp
    · have hc : ¬((["level", "component", "application", "source_file"].contains req.sortBy)
          = true) := by simpa using hm
      rw [if_neg hc, if_neg hm]
      simp

/-- model→repo boundary of the orchestrator: time.Duration thresholds in
nanoseconds (time.Hour = 3.6e12 ns). -/
def hourNs : Int := 3600000000000

/-- nlv determineInterval: pick the bucket interval from the window length
(the groupBy argument is ignored). -/
def determineInterval (startT endT : Int) (groupBy : List String) : String :=
  let duration := endT - startT
  if duration ≤ 2 * hourNs then "1 minute"
  else if duration ≤ 12 * hourNs then "5 minute"
  else if duration ≤ 24 * 2 * hourNs then "10 minute"
  else if duration ≤ 24 * 7 * hourNs then "1 hour"
  else "1 day"

/-- Specification-side: the claimed interval as a function of the duration
alone (2 days and 7 days spelled out in hours). -/
def intervalForDuration (d : Int) : String :=
  if d ≤ 2 * hourNs then "1 minute"
  else if d ≤ 12 * hourNs then "5 minute"
  else if d ≤ 48 * hourNs then "10 minute"
  else if d ≤ 168 * hourNs then "1 hour"
  else "1 day"

/-- C8: the interval chosen by the orchestrator depends only on the
duration end minus start: 1 minute up to 2 hours, 5 minutes up to 12 hours,
10 minutes up to 2 days, 1 hour up to 7 days, 1 day beyond. -/
theorem c8_interval_from_duration (startT endT : Int) (groupBy : List String) :
    determineInterval startT endT groupBy = intervalForDuration (endT - startT) := by
  simp only [determineInterval, intervalForDuration]
  norm_num

/-- dto.TimeRange: textual bounds handed back by the LLM ("now-1h",
ISO-8601, epoch millis). -/
structure TimeRange where
  start : String
  endS : String
  deriving Repr, DecidableEq

/-- dto.SortInfo. -/
structure SortInfo where
  field : String
  order : String
  deriving Repr, DecidableEq

/-- The dynamic filter value (interface value in Go): a string, a number,
or a list of strings. -/
inductive FilterValue where
  | str (s : String)
  | num (n : Int)
  | strs (ss : List String)
  deriving Repr, DecidableEq

/-- dto.QueryFilter. -/
structure QueryFilter where
  field : String
  operator : String
  value : FilterValue
  deriving Repr, DecidableEq

/-- dto.LLMAnalysisResult; metric_name is a nullable pointer in Go, hence
an Option here. -/
structure LLMAnalysisResult where
  intent : String
  metricName : Option String
  timeRange : TimeRange
  filters : List QueryFilter
  groupBy : List String
  aggregation : String
  sort : Option SortInfo
  limit : Option Int
  deriving Repr, DecidableEq

/-- dto.MetricTimeseriesRequest (featureful variant used by the NL
orchestrator, with sort and limit push-down). -/
structure MetricTimeseriesRequest where
  startTime : Int
  endTime : Int
  metricName : String
  interval : String
  groupBy : String
  applications : List String
  sort : Option SortInfo
  limit : Option Int
  deriving Repr, DecidableEq

/-- dto.NLVQueryResponse restricted to the facets the claims inspect. -/
structure NLVQueryResponse where
  conversationId : String
  originalQuery : String
  resultType : String
  errorMessage : Option String
  request : Option MetricTimeseriesRequest
  deriving Repr, DecidableEq

/-- nlv createErrorResponseWithId. -/
def createErrorResponseWithId (convoId query message : String) : NLVQueryResponse :=
  { conversationId := convoId, originalQuery := query, resultType := "error",
    errorMessage := some message, request := none }

/-- nlv determineGroupByField: "total" when no group_by; else the first
"tags."-prefixed element with the prefix stripped; else the first element. -/
def determineGroupByField (groupBy : List String) : String :=
  if groupBy.isEmpty then "total"
  else
    match groupBy.find? (fun g => g.startsWith "tags.") with
    | some g => g.drop 5
    | none => groupBy.headD ""

/-- nlv extractApplicationsFromFilters: the first filter on field
"application" with operator "=" and a string value, or operator "IN" and a
list value, decides; other filters are skipped. -/
def extractApplicationsFromFilters : List QueryFilter → List String
  | [] => []
  | f :: fs =>
    if f.field == "application" then
      if f.operator == "=" then
        match f.value with
        | .str a => [a]
        | _ => extractApplicationsFromFilters fs
      else if f.operator == "IN" then
        match f.value with
        | .strs apps => apps
        | _ => extractApplicationsFromFilters fs
      else extractApplicationsFromFilters fs
    else extractApplicationsFromFilters fs

/-- nlv handleMetricQuery.  ParseTimeInput is modelled as an injected
parser from the textual bound to an instant; the metric repository call is
an oracle bit.  After the time bounds validate, the Go code reads
`*analysis.MetricName` with no nil check while building the
MetricTimeseriesRequest: for a nil metric_name that dereference panics,
modelled as the absent result none. -/
def handleMetricQuery (parseT : String → Option Int) (repoOk : Bool)
    (conversationId originalQuery : String) (analysis : LLMAnalysisResult) :
    Option NLVQueryResponse :=
  match parseT analysis.timeRange.start, parseT analysis.timeRange.endS with
  | some startTime, some endTime =>
    if endTime < startTime then
      some (createErrorResponseWithId conversationId originalQuery
        "Could not understand the time range.")
    else
      match analysis.metricName with
      | none => none
      | some m =>
        let req : MetricTimeseriesRequest :=
          { startTime := startTime, endTime := endTime, metricName := m,
            interval := determineInterval startTime endTime analysis.groupBy,
            groupBy := determineGroupByField analysis.groupBy,
            applications := extractApplicationsFromFilters analysis.filters,
            sort := analysis.sort, limit := analysis.limit }
        if repoOk then
          some { conversationId := conversationId, originalQuery := originalQuery,
                 resultType := "timeseries", errorMessage := none, request := some req }
        else
          some (createErrorResponseWithId conversationId originalQuery
            "Failed to retrieve metric data.")
  | _, _ =>
    some (createErrorResponseWithId conversationId originalQuery
      "Could not understand the time range.")

/-- C9: when the analysis has intent query_metric, handleMetricQuery
dereferences the optional metric_name with no nil check once the time
bounds validate: with a null metric_name and parsable bounds (end not
before start) there is no defined result -- a nil-pointer panic rather than
the structured error response; with a non-null metric_name the result is
always defined; an unparsable start still gets the structured time-range
error response whatever metric_name is. -/
theorem c9_metric_name_nil_deref (parseT : String → Option Int) (repoOk : Bool)
    (cid q : String) (analysis : LLMAnalysisResult) (s e : Int) :
    (parseT analysis.timeRange.start = some s → parseT analysis.timeRange.endS = some e →
        ¬(e < s) → analysis.metricName = none →
        handleMetricQuery parseT repoOk cid q analysis = none)
      ∧ (analysis.metricName.isSome →
          (handleMetricQuery parseT repoOk cid q analysis).isSome)
      ∧ (parseT analysis.timeRange.start = none →
          handleMetricQuery parseT repoOk cid q analysis
            = some (createErrorResponseWithId cid q "Could not understand the time range.")) := by
  refine ⟨?_, ?_, ?_⟩
  · intro hs he hlt hnone
    simp [handleMetricQuery, hs, he, hlt, hnone]
  · intro hsome
    obtain ⟨m, hm⟩ := Option.isSome_iff_exists.mp hsome
    cases hps : parseT analysis.timeRange.start with
    | none => simp [handleMetricQuery, hps]
    | some s0 =>
      cases hpe : parseT analysis.timeRange.endS with
      | none => simp [handleMetricQuery, hps, hpe]
      | some e0 =>
        by_cases hlt : e0 < s0
        · simp [handleMetricQuery, hps, hpe, hlt]
        · cases hrep : repoOk <;> simp [handleMetricQuery, hps, hpe, hlt, hm, hrep]
  · intro hps
    simp [handleMetricQuery, hps]

/-- Witness for c9_metric_name_nil_deref: a query_metric analysis with a
null metric_name and the bounds now-1h..now parsing to 0..60 has no defined
result, while the same analysis with metric_name error_event does. -/
theorem c9_metric_name_nil_deref_witness :
    (handleMetricQuery
        (fun t => if t = "now-1h" then some 0 else if t = "now" then some 60 else none)
        true "c1" "errors in last hour"
        { intent := "query_metric", metricName := none,
          timeRange := { start := "now-1h", endS := "now" }, filters := [],
          groupBy := [], aggregation := "COUNT", sort := none, limit := none } = none)
      ∧ (handleMetricQuery
          (fun t => if t = "now-1h" then some 0 else if t = "now" then some 60 else none)
          true "c1" "errors in last hour"
          { intent := "query_metric", metricName := some "error_event",
            timeRange := { start := "now-1h", endS := "now" }, filters := [],
            groupBy := [], aggregation := "COUNT", sort := none, limit := none }).isSome := by
  constructor
  · exact (c9_metric_name_nil_deref
      (fun t => if t = "now-1h" then some 0 else if t = "now" then some 60 else none)
      true "c1" "errors in last hour"
      { intent := "query_metric", metricName := none,
        timeRange := { start := "now-1h", endS := "now" }, filters := [],
        groupBy := [], aggregation := "COUNT", sort := none, limit := none }
      0 60).1 (by decide) (by decide) (by decide) rfl
  · exact (c9_metric_name_nil_deref
      (fun t => if t = "now-1h" then some 0 else if t = "now" then some 60 else none)
      true "c1" "errors in last hour"
      { intent := "query_metric", metricName := some "error_event",
        timeRange := { start := "now-1h", endS := "now" }, filters := [],
        groupBy := [], aggregation := "COUNT", sort := none, limit := none }
      0 60).2.1 rfl

/-- dto.MetricSummaryResponse. -/
structure MetricSummaryResponse where
  totalLogEvents : Int
  totalErrorEvents : Int
  deriving Repr, DecidableEq

/-- timescaleMetricRepository.GetSummaryMetrics: the two COUNT(*) query
results are oracles (none = the QueryRow/Scan failed).  The response starts
zeroed and a failed Scan leaves its field at zero; the shared err variable
is overwritten by the second query, so the final guard sees only the
error_event query's error, and an error is returned exactly when both
totals are zero and that second query failed. -/
def getSummaryMetrics (logCount errorCount : Option Int) :
    Except String MetricSummaryResponse :=
  let totalLog := logCount.getD 0
  let totalError := errorCount.getD 0
  if totalLog == 0 && totalError == 0 && errorCount.isNone then
    Except.error "failed to get summary metrics"
  else
    Except.ok { totalLogEvents := totalLog, totalErrorEvents := totalError }

/-- C10: GetSummaryMetrics returns an error iff the second (error_event)
count failed and both returned totals are zero; in particular a failure of
only the log_event count yields a successful response with a zero log-event
total, and a failure of only the error_event count with a non-zero log
total yields a successful response with a zero error-event total. -/
theorem c10_summary_error_only_when_second_fails (logCount errorCount : Option Int) :
    ((∃ m, getSummaryMetrics logCount errorCount = .error m)
        ↔ (errorCount = none ∧ logCount.getD 0 = 0))
      ∧ (logCount = none → ∀ v, errorCount = some v →
          getSummaryMetrics logCount errorCount = .ok ⟨0, v⟩)
      ∧ (∀ v, logCount = some v → errorCount = none → ¬(v = 0) →
          getSummaryMetrics logCount errorCount = .ok ⟨v, 0⟩) := by
  refine ⟨?_, ?_, ?_⟩
  · constructor
    · intro ⟨m, hm⟩
      by_cases hc : (logCount.getD 0 == 0 && errorCount.getD 0 == 0 && errorCount.isNone) = true
      · simp only [Bool.and_eq_true, beq_iff_eq, Option.isNone_iff_eq_none] at hc
        exact ⟨hc.2, hc.1.1⟩
      · simp [getSummaryMetrics, hc] at hm
    · intro ⟨hec, hlc⟩
      refine ⟨"failed to get summary metrics", ?_⟩
      simp [getSummaryMetrics, hec, hlc]
  · intro hlc v hec
    simp [getSummaryMetrics, hlc, hec]
  · intro v hlc hec hv
    simp [getSummaryMetrics, hlc, hec, hv]

/-- Witness for c10_summary_error_only_when_second_fails: a failed
log_event count with a successful error_event count of 7 yields a
successful response with totals 0 and 7. -/
theorem c10_summary_witness :
    getSummaryMetrics none (some 7) = .ok ⟨0, 7⟩ := by
  exact (c10_summary_error_only_when_second_fails none (some 7)).2.1 rfl 7 rfl

end Datakat
